import Mathlib

/-!
# Verification of the TMC2209 serial-driver core (loki_firmware)

Shallow embedding of `src/Core/Inc/robot.hpp` (the TMC2209 stepper-driver
serial communication core): the CRC-8 engine, byte reversal, datagram
construction, the half-duplex transaction engine, the cached register model
and the parameter-mapping layer.  Machine integers are modelled as `Nat`
(with explicit `% 2^w` / masking where the C code truncates), fallible
HAL calls are modelled by an explicit oracle (`World`) giving the outcome
of each transmit / receive call, and each transaction additionally returns
the list of observable events (`Ev`) it performed.
-/

/-! ## Constants

The companion header `peripherals/TMC2209.hpp` is not part of the sources;
the constants below that it declares are modelled from the spec where the
spec fixes them, and from the TMC2209 register map the spec's datagram and
register descriptions follow otherwise.
-/

/-- Modelled from the spec: bits per byte (`BITS_PER_BYTE` lives in the missing
`peripherals/TMC2209.hpp`; the spec's §4.1–§4.3 fix byte-wise, 8-bit processing). -/
def BITS_PER_BYTE : Nat := 8

/-- Modelled from the spec: byte mask (`BYTE_MAX_VALUE` from the missing header). -/
def BYTE_MAX_VALUE : Nat := 0xff

/-- Modelled from the spec: the payload is 32 bits, i.e. 4 bytes (`DATA_SIZE`
from the missing header). -/
def DATA_SIZE : Nat := 4

/-- Modelled from the spec: sync pattern constant (`SYNC` from the missing header). -/
def SYNC : Nat := 0b101

/-- Modelled from the spec: read/write flag values (`RW_WRITE` from the missing header). -/
def RW_WRITE : Nat := 1

/-- Modelled from the spec: read/write flag values (`RW_READ` from the missing header). -/
def RW_READ : Nat := 0

/-- Modelled from the spec: a read-request datagram is 4 bytes
(`READ_REQUEST_DATAGRAM_SIZE` from the missing header; §4.3: sync, address,
register|flag, crc — no payload). -/
def READ_REQUEST_DATAGRAM_SIZE : Nat := 4

/-- Modelled from the spec: a write / read-reply datagram is 8 bytes
(`WRITE_READ_REPLY_DATAGRAM_SIZE` from the missing header; §4.3: sync, address,
register|flag, 32-bit payload, crc). -/
def WRITE_READ_REPLY_DATAGRAM_SIZE : Nat := 8

/-- Modelled from the spec: register addresses (`ADDRESS_*` from the missing
header, values from the chip's register map the spec's register model follows). -/
def ADDRESS_GCONF : Nat := 0x00

/-- Modelled from the spec: see `ADDRESS_GCONF`. -/
def ADDRESS_GSTAT : Nat := 0x01

/-- Modelled from the spec: see `ADDRESS_GCONF`. -/
def ADDRESS_IOIN : Nat := 0x06

/-- Modelled from the spec: see `ADDRESS_GCONF`. -/
def ADDRESS_IHOLD_IRUN : Nat := 0x10

/-- Modelled from the spec: see `ADDRESS_GCONF`. -/
def ADDRESS_COOLCONF : Nat := 0x42

/-- Modelled from the spec: see `ADDRESS_GCONF`. -/
def ADDRESS_CHOPCONF : Nat := 0x6C

/-- Modelled from the spec: see `ADDRESS_GCONF`. -/
def ADDRESS_PWMCONF : Nat := 0x70

/-- Modelled from the spec: the identification register's expected version
signature (`VERSION` from the missing header). -/
def VERSION : Nat := 0x21

/-- Modelled from the spec: percent range bounds (`PERCENT_MIN`/`PERCENT_MAX`
from the missing header; the spec fixes percent parameters to 0–100). -/
def PERCENT_MIN : Nat := 0

/-- Modelled from the spec: see `PERCENT_MIN`. -/
def PERCENT_MAX : Nat := 100

/-- Modelled from the spec: the register-native current-setting range is 0–31
(`CURRENT_SETTING_MIN`/`MAX` from the missing header; spec §4.6). -/
def CURRENT_SETTING_MIN : Nat := 0

/-- Modelled from the spec: see `CURRENT_SETTING_MIN`. -/
def CURRENT_SETTING_MAX : Nat := 31

/-- Modelled from the spec: hold-delay register range (`HOLD_DELAY_MIN`/`MAX`
from the missing header; the iholddelay field is 4 bits wide). -/
def HOLD_DELAY_MIN : Nat := 1

/-- Modelled from the spec: see `HOLD_DELAY_MIN`. -/
def HOLD_DELAY_MAX : Nat := 15

/-- Modelled from the spec: valid microsteps-per-step range
(`MICROSTEPS_PER_STEP_MIN`/`MAX` from the missing header; spec: powers of two
1 through 256). -/
def MICROSTEPS_PER_STEP_MIN : Nat := 1

/-- Modelled from the spec: see `MICROSTEPS_PER_STEP_MIN`. -/
def MICROSTEPS_PER_STEP_MAX : Nat := 256

/-- Modelled from the spec: 4-bit microstep-resolution codes (`MRES_*` from the
missing header); per the register map, 256 microsteps is code 0 and the code
increments as the resolution halves. -/
def MRES_001 : Nat := 8

/-- Modelled from the spec: see `MRES_001`. -/
def MRES_002 : Nat := 7

/-- Modelled from the spec: see `MRES_001`. -/
def MRES_004 : Nat := 6

/-- Modelled from the spec: see `MRES_001`. -/
def MRES_008 : Nat := 5

/-- Modelled from the spec: see `MRES_001`. -/
def MRES_016 : Nat := 4

/-- Modelled from the spec: see `MRES_001`. -/
def MRES_032 : Nat := 3

/-- Modelled from the spec: see `MRES_001`. -/
def MRES_064 : Nat := 2

/-- Modelled from the spec: see `MRES_001`. -/
def MRES_128 : Nat := 1

/-- Modelled from the spec: see `MRES_001`. -/
def MRES_256 : Nat := 0

/-- Modelled from the spec: the "driver off time" disabled sentinel
(`TOFF_DISABLE` from the missing header; spec §4.5). -/
def TOFF_DISABLE : Nat := 0

/-- Modelled from the spec: cool-step lower-threshold field bounds
(`SEMIN_MIN`/`SEMIN_MAX` from the missing header; the semin field is 4 bits). -/
def SEMIN_MIN : Nat := 1

/-- Modelled from the spec: see `SEMIN_MIN`. -/
def SEMIN_MAX : Nat := 15

/-- Modelled from the spec: cool-step upper-threshold field bounds
(`SEMAX_MIN`/`SEMAX_MAX` from the missing header; the semax field is 4 bits). -/
def SEMAX_MIN : Nat := 0

/-- Modelled from the spec: see `SEMAX_MIN`. -/
def SEMAX_MAX : Nat := 15

/-- Modelled from the spec: semin-off sentinel (`SEMIN_OFF` from the missing header). -/
def SEMIN_OFF : Nat := 0

/-- Modelled from the spec: run-current level at or above which the
minimum-current scaling bit switches to its upper setting
(`SEIMIN_UPPER_CURRENT_LIMIT` from the missing header). -/
def SEIMIN_UPPER_CURRENT_LIMIT : Nat := 20

/-- Modelled from the spec: seimin bit value used for high run currents
(`SEIMIN_UPPER_SETTING` from the missing header). -/
def SEIMIN_UPPER_SETTING : Nat := 0

/-- Modelled from the spec: seimin bit value used for low run currents
(`SEIMIN_LOWER_SETTING` from the missing header). -/
def SEIMIN_LOWER_SETTING : Nat := 1

/-! ## Pure helper functions from the source -/

/-- `TMC2209::constrain_` (robot.hpp line 892): clamp `value` into `[low, high]`. -/
def constrain_ (value low high : Nat) : Nat :=
  if value < low then low else if value > high then high else value

/-- The `map` template (robot.hpp lines 135–154) instantiated at `T = uint8_t`,
`U = long`: linear interpolation computed in the wide signed type (no overflow
for these ranges on a 64-bit `long`), C truncating division (`Int.tdiv`), then
clamped to `uint8_t`'s range `[0, 255]` (`numeric_limits<T>::min/max`). -/
def map (x in_min in_max out_min out_max : Int) : Int :=
  let result := Int.tdiv ((x - in_min) * (out_max - out_min)) (in_max - in_min) + out_min
  if result < 0 then 0 else if result > 255 then 255 else result

/-- `TMC2209::percentToCurrentSetting` (robot.hpp lines 829–834). -/
def percentToCurrentSetting (percent : Nat) : Nat :=
  let constrained_percent := constrain_ percent PERCENT_MIN PERCENT_MAX
  (map constrained_percent PERCENT_MIN PERCENT_MAX CURRENT_SETTING_MIN
    CURRENT_SETTING_MAX).toNat

/-- `TMC2209::currentSettingToPercent` (robot.hpp lines 836–840). -/
def currentSettingToPercent (current_setting : Nat) : Nat :=
  (map current_setting CURRENT_SETTING_MIN CURRENT_SETTING_MAX PERCENT_MIN
    PERCENT_MAX).toNat

/-- `TMC2209::percentToHoldDelaySetting` (robot.hpp lines 842–847). -/
def percentToHoldDelaySetting (percent : Nat) : Nat :=
  let constrained_percent := constrain_ percent PERCENT_MIN PERCENT_MAX
  (map constrained_percent PERCENT_MIN PERCENT_MAX HOLD_DELAY_MIN
    HOLD_DELAY_MAX).toNat

/-- `TMC2209::holdDelaySettingToPercent` (robot.hpp lines 849–853). -/
def holdDelaySettingToPercent (hold_delay_setting : Nat) : Nat :=
  (map hold_delay_setting HOLD_DELAY_MIN HOLD_DELAY_MAX PERCENT_MIN
    PERCENT_MAX).toNat

/-- `TMC2209::reverseData` (robot.hpp lines 700–710): swap the byte order of a
32-bit value via the symmetric shift/mask loop. -/
def reverseData (data : Nat) : Nat :=
  (List.range DATA_SIZE).foldl
    (fun reversed_data i =>
      let right_shift := (DATA_SIZE - i - 1) * BITS_PER_BYTE
      let left_shift := i * BITS_PER_BYTE
      reversed_data ||| (((data >>> right_shift) &&& BYTE_MAX_VALUE) <<< left_shift))
    0

/-- One bit-step of `TMC2209::calculateCrc` (robot.hpp lines 718–725): the body
of the inner `j` loop; `crc` is a `uint8_t`, so each assignment truncates mod 256. -/
def crcStep (crc byte : Nat) : Nat :=
  if (crc >>> 7) ^^^ (byte &&& 0x01) ≠ 0 then ((crc <<< 1) ^^^ 0x07) % 256
  else (crc <<< 1) % 256

/-- The inner `j` loop of `TMC2209::calculateCrc`: process `j` bits of `byte`,
least-significant first, shifting `byte` right after each step. -/
def crcByteBits : Nat → Nat → Nat → Nat
  | 0, _, crc => crc
  | j + 1, byte, crc => crcByteBits j (byte >>> 1) (crcStep crc byte)

/-- The outer `i` loop of `TMC2209::calculateCrc`: process `count` bytes of the
datagram starting at byte index `i`. -/
def calculateCrcAux (bytes : Nat) : Nat → Nat → Nat → Nat
  | 0, _, crc => crc
  | count + 1, i, crc =>
      calculateCrcAux bytes count (i + 1)
        (crcByteBits BITS_PER_BYTE ((bytes >>> (i * BITS_PER_BYTE)) &&& BYTE_MAX_VALUE) crc)

/-- `TMC2209::calculateCrc` (robot.hpp lines 712–728): CRC-8 over the first
`datagram_size - 1` bytes of the packed datagram value `bytes`. -/
def calculateCrc (bytes datagram_size : Nat) : Nat :=
  calculateCrcAux bytes (datagram_size - 1) 0 0

/-- The `while (microsteps_per_step_shifted > 0)` loop of
`TMC2209::setMicrostepsPerStep` (robot.hpp lines 201–204): count how many
right-shifts empty `m`. -/
def countShifts (m : Nat) : Nat :=
  if h : 0 < m then countShifts (m >>> 1) + 1 else 0
termination_by m
decreasing_by
  simpa [Nat.shiftRight_eq_div_pow] using Nat.div_lt_self h (by norm_num)

/-- The exponent computed by `TMC2209::setMicrostepsPerStep` (robot.hpp lines
196–206).  Note the source computes a clamped copy of the request but then
shifts the *unclamped* request, so the clamp is dead; the embedding mirrors
this by shadowing. -/
def setMicrostepsPerStep_exponent (microsteps_per_step : Nat) : Nat :=
  let microsteps_per_step_shifted := constrain_ microsteps_per_step
    MICROSTEPS_PER_STEP_MIN MICROSTEPS_PER_STEP_MAX
  let microsteps_per_step_shifted := microsteps_per_step >>> 1
  countShifts microsteps_per_step_shifted

/-- The `switch (exponent)` of `TMC2209::setMicrostepsPerStepPowerOfTwo`
(robot.hpp lines 208–249): the mres code stored for a given exponent; the
`default` case stores `MRES_256`. -/
def mresOfExponent (exponent : Nat) : Nat :=
  match exponent with
  | 0 => MRES_001
  | 1 => MRES_002
  | 2 => MRES_004
  | 3 => MRES_008
  | 4 => MRES_016
  | 5 => MRES_032
  | 6 => MRES_064
  | 7 => MRES_128
  | 8 => MRES_256
  | _ => MRES_256

/-- The `switch (chopper_config_.mres)` of `TMC2209::getMicrostepsPerStep`
(robot.hpp lines 455–497): exponent recovered from an mres code; the `default`
case yields 8. -/
def exponentOfMres (mres : Nat) : Nat :=
  if mres = MRES_001 then 0
  else if mres = MRES_002 then 1
  else if mres = MRES_004 then 2
  else if mres = MRES_008 then 3
  else if mres = MRES_016 then 4
  else if mres = MRES_032 then 5
  else if mres = MRES_064 then 6
  else if mres = MRES_128 then 7
  else 8

/-! ## Packed register bit-fields

The registers are C unions of a packed bit-field struct with a `bytes`
integer; the cached copies are mutated field-wise.  A field of width `w` at
bit position `p` of a 32-bit register is read and written as follows. -/

/-- Read the `width`-bit field at bit `pos` of a packed register value. -/
def getField (bytes pos width : Nat) : Nat :=
  (bytes >>> pos) &&& (2 ^ width - 1)

/-- Write the `width`-bit field at bit `pos` of a packed 32-bit register value,
truncating the stored value to the field width (C bit-field assignment). -/
def setField (bytes pos width value : Nat) : Nat :=
  (bytes &&& ((2 ^ 32 - 1) ^^^ ((2 ^ width - 1) <<< pos))) |||
    ((value &&& (2 ^ width - 1)) <<< pos)

/-! ## The half-duplex transaction engine

`HAL_UART_Transmit` / `HAL_UART_Receive` outcomes are modelled by an oracle
`World`: the `n`-th transmit call succeeds iff `txOk n`, the `n`-th blocking
receive call succeeds iff `rxOk n` and, when it succeeds, delivers the bytes
`rxData n`.  `pending` is the number of bytes currently pending in the receive
buffer (the RXNE flag is set iff it is nonzero); the zero-timeout drain loop
of `sendDatagramBidirectional` empties it without consuming the blocking
receive oracle.  Each operation also returns the list of events it performed. -/

/-- Outcome oracle for the serial transport (see section comment). -/
structure World where
  pending : Nat
  txOk : Nat → Bool
  txCount : Nat
  rxOk : Nat → Bool
  rxData : Nat → List Nat
  rxCount : Nat

/-- Observable events of a transaction. -/
inductive Ev where
  /-- one stale byte read by the zero-timeout drain loop -/
  | drainByte
  /-- one `HAL_UART_Transmit` of byte `b`, returning success `ok` -/
  | txByte (b : Nat) (ok : Bool)
  /-- `BSP_LED_On(LED_GREEN)` in `sendDatagramUnidirectional` -/
  | ledGreenOn
  /-- `HAL_GPIO_WritePin(GPIOA, GPIO_PIN_5, GPIO_PIN_SET)` in `sendDatagramBidirectional` -/
  | errorPinSet
  /-- the blocking echo receive of `sendDatagramBidirectional`, success `ok` -/
  | rxEcho (ok : Bool)
  /-- the blocking reply receive of `TMC2209::read`, success `ok` -/
  | rxReply (ok : Bool)
  /-- a whole write datagram handed to the wire for `register_address` -/
  | writeDatagram (register_address : Nat)
  /-- a whole read-request datagram handed to the wire for `register_address` -/
  | readDatagram (register_address : Nat)
deriving DecidableEq

/-- One `HAL_UART_Transmit` call: outcome and advanced oracle. -/
def World.transmit (w : World) : Bool × World :=
  (w.txOk w.txCount, { w with txCount := w.txCount + 1 })

/-- One blocking `HAL_UART_Receive` call: outcome, delivered bytes, advanced oracle. -/
def World.receive (w : World) : Bool × List Nat × World :=
  (w.rxOk w.rxCount, w.rxData w.rxCount, { w with rxCount := w.rxCount + 1 })

/-- The `for` loop of `TMC2209::sendDatagramUnidirectional` (robot.hpp lines
736–742): transmit `count` datagram bytes starting at byte index `i`; a failed
transmit lights the green LED and the loop continues. -/
def sendLoopUni (datagram_bytes : Nat) : Nat → Nat → World → World × List Ev
  | 0, _, w => (w, [])
  | count + 1, i, w =>
    let byte := (datagram_bytes >>> (i * BITS_PER_BYTE)) &&& BYTE_MAX_VALUE
    let (ok, w') := w.transmit
    let evs := if ok then [Ev.txByte byte ok] else [Ev.txByte byte ok, Ev.ledGreenOn]
    let (w'', rest) := sendLoopUni datagram_bytes count (i + 1) w'
    (w'', evs ++ rest)

/-- `TMC2209::sendDatagramUnidirectional` (robot.hpp lines 730–743). -/
def sendDatagramUnidirectional (datagram_bytes datagram_size : Nat) (w : World) :
    World × List Ev :=
  sendLoopUni datagram_bytes datagram_size 0 w

/-- The `while (__HAL_UART_GET_FLAG(huart_, UART_FLAG_RXNE))` loop of
`TMC2209::sendDatagramBidirectional` (robot.hpp lines 752–756): read pending
bytes with a zero timeout until the RXNE flag clears. -/
def clearRxBuffer (w : World) : World × List Ev :=
  ({ w with pending := 0 }, List.replicate w.pending Ev.drainByte)

/-- The transmit `for` loop of `TMC2209::sendDatagramBidirectional` (robot.hpp
lines 761–768): transmit `count` bytes starting at index `i`; on the first
failure set the error pin and return (the `Bool` records whether the loop
completed, i.e. whether control reaches the echo receive). -/
def sendLoopBidi (datagram_bytes : Nat) : Nat → Nat → World → Bool × World × List Ev
  | 0, _, w => (true, w, [])
  | count + 1, i, w =>
    let byte := (datagram_bytes >>> (i * BITS_PER_BYTE)) &&& BYTE_MAX_VALUE
    let (ok, w') := w.transmit
    if ok then
      let (completed, w'', rest) := sendLoopBidi datagram_bytes count (i + 1) w'
      (completed, w'', Ev.txByte byte ok :: rest)
    else (false, w', [Ev.txByte byte ok, Ev.errorPinSet])

/-- `TMC2209::sendDatagramBidirectional` (robot.hpp lines 745–780): drain the
receive buffer, transmit the datagram (aborting on the first failed byte), and
— only if every byte was transmitted — block for the self-echo, whose outcome
is ignored. -/
def sendDatagramBidirectional (datagram_bytes datagram_size : Nat) (w : World) :
    World × List Ev :=
  let (w1, evs1) := clearRxBuffer w
  let (completed, w2, evs2) := sendLoopBidi datagram_bytes datagram_size 0 w1
  if completed then
    let (echo_ok, _, w3) := w2.receive
    (w3, evs1 ++ evs2 ++ [Ev.rxEcho echo_ok])
  else (w2, evs1 ++ evs2)

/-! ## The register model: one driver instance -/

/-- Cached state of one `TMC2209` driver instance plus its transport oracle.
The five write-side configuration registers are cached as packed 32-bit values
(the C unions' `bytes` members). -/
structure TMC where
  huart : World
  serial_address : Nat
  global_config : Nat
  chopper_config : Nat
  pwm_config : Nat
  driver_current : Nat
  cool_config : Nat
  cool_step_enabled : Bool

/-- The packed `WriteReadReplyDatagram` built by `TMC2209::write` (robot.hpp
lines 782–794).  Modelled from the spec: the field layout
`[sync][address][register|flag][payload][crc]` (the union declaration lives in
the missing header): sync bits 0–7 (4-bit pattern plus reserved nibble),
serial address bits 8–15, register address bits 16–22, rw flag bit 23,
byte-reversed payload bits 24–55, crc bits 56–63. -/
def writeDatagramBytes (serial_address register_address data : Nat) : Nat :=
  let base := (SYNC &&& 0xf) ||| ((serial_address &&& 0xff) <<< 8) |||
    ((register_address &&& 0x7f) <<< 16) ||| ((RW_WRITE &&& 0x1) <<< 23) |||
    ((reverseData data &&& 0xffffffff) <<< 24)
  base ||| ((calculateCrc base WRITE_READ_REPLY_DATAGRAM_SIZE &&& 0xff) <<< 56)

/-- The packed `ReadRequestDatagram` built by `TMC2209::read` (robot.hpp lines
796–804).  Modelled from the spec: same layout as `writeDatagramBytes` without
the payload; crc occupies bits 24–31. -/
def readRequestDatagramBytes (serial_address register_address : Nat) : Nat :=
  let base := (SYNC &&& 0xf) ||| ((serial_address &&& 0xff) <<< 8) |||
    ((register_address &&& 0x7f) <<< 16) ||| ((RW_READ &&& 0x1) <<< 23)
  base ||| ((calculateCrc base READ_REQUEST_DATAGRAM_SIZE &&& 0xff) <<< 24)

/-- The reply reassembly loop of `TMC2209::read` (robot.hpp lines 817–826):
pack the 8 received bytes little-endian and extract the 32-bit data field
(bits 24–55). -/
def replyDatagramData (reply_bytes : List Nat) : Nat :=
  let bytes := (List.range WRITE_READ_REPLY_DATAGRAM_SIZE).foldl
    (fun acc i => acc ||| ((reply_bytes.getD i 0 &&& 0xff) <<< (i * BITS_PER_BYTE))) 0
  (bytes >>> 24) &&& 0xffffffff

/-- `TMC2209::write` (robot.hpp lines 782–794): build the write datagram and
send it unidirectionally; nothing is returned. -/
def TMC.write (t : TMC) (register_address data : Nat) : TMC × List Ev :=
  let dg := writeDatagramBytes t.serial_address register_address data
  let (w', evs) := sendDatagramUnidirectional dg WRITE_READ_REPLY_DATAGRAM_SIZE t.huart
  ({ t with huart := w' }, Ev.writeDatagram register_address :: evs)

/-- `TMC2209::read` (robot.hpp lines 796–827): send the read-request datagram
bidirectionally, then block for the 8-byte reply; on receive failure return
the sentinel 0, otherwise the byte-reversed data field of the reply. -/
def TMC.read (t : TMC) (register_address : Nat) : Nat × TMC × List Ev :=
  let dg := readRequestDatagramBytes t.serial_address register_address
  let (w1, evs1) := sendDatagramBidirectional dg READ_REQUEST_DATAGRAM_SIZE t.huart
  let (reply_ok, reply_bytes, w2) := w1.receive
  let t' := { t with huart := w2 }
  let evs := Ev.readDatagram register_address :: (evs1 ++ [Ev.rxReply reply_ok])
  if reply_ok then (reverseData (replyDatagramData reply_bytes), t', evs)
  else (0, t', evs)

/-! ## Register-model setters and getters -/

/-- `TMC2209::writeStoredGlobalConfig` (robot.hpp lines 855–857). -/
def TMC.writeStoredGlobalConfig (t : TMC) : TMC × List Ev :=
  t.write ADDRESS_GCONF t.global_config

/-- `TMC2209::writeStoredChopperConfig` (robot.hpp lines 876–878). -/
def TMC.writeStoredChopperConfig (t : TMC) : TMC × List Ev :=
  t.write ADDRESS_CHOPCONF t.chopper_config

/-- `TMC2209::writeStoredPwmConfig` (robot.hpp lines 884–886). -/
def TMC.writeStoredPwmConfig (t : TMC) : TMC × List Ev :=
  t.write ADDRESS_PWMCONF t.pwm_config

/-- `TMC2209::writeStoredDriverCurrent` (robot.hpp lines 863–874): write the
cached IHOLD_IRUN register, update the cached cool-config seimin bit (bit 15)
from the cached irun (bits 8–12), then re-write COOLCONF iff cool-step is
enabled. -/
def TMC.writeStoredDriverCurrent (t : TMC) : TMC × List Ev :=
  let (t1, evs1) := t.write ADDRESS_IHOLD_IRUN t.driver_current
  let seimin :=
    if getField t1.driver_current 8 5 ≥ SEIMIN_UPPER_CURRENT_LIMIT then
      SEIMIN_UPPER_SETTING
    else SEIMIN_LOWER_SETTING
  let t2 := { t1 with cool_config := setField t1.cool_config 15 1 seimin }
  if t2.cool_step_enabled then
    let (t3, evs2) := t2.write ADDRESS_COOLCONF t2.cool_config
    (t3, evs1 ++ evs2)
  else (t2, evs1)

/-- `TMC2209::setRunCurrent` (robot.hpp lines 251–255): irun is bits 8–12 of
the IHOLD_IRUN register. -/
def TMC.setRunCurrent (t : TMC) (percent : Nat) : TMC × List Ev :=
  let run_current := percentToCurrentSetting percent
  TMC.writeStoredDriverCurrent
    { t with driver_current := setField t.driver_current 8 5 run_current }

/-- `TMC2209::setHoldCurrent` (robot.hpp lines 257–262): ihold is bits 0–4 of
the IHOLD_IRUN register. -/
def TMC.setHoldCurrent (t : TMC) (percent : Nat) : TMC × List Ev :=
  let hold_current := percentToCurrentSetting percent
  TMC.writeStoredDriverCurrent
    { t with driver_current := setField t.driver_current 0 5 hold_current }

/-- `TMC2209::setHoldDelay` (robot.hpp lines 264–269): iholddelay is bits
16–19 of the IHOLD_IRUN register. -/
def TMC.setHoldDelay (t : TMC) (percent : Nat) : TMC × List Ev :=
  let hold_delay := percentToHoldDelaySetting percent
  TMC.writeStoredDriverCurrent
    { t with driver_current := setField t.driver_current 16 4 hold_delay }

/-- `TMC2209::setAllCurrentValues` (robot.hpp lines 271–281). -/
def TMC.setAllCurrentValues (t : TMC)
    (run_current_percent hold_current_percent hold_delay_percent : Nat) :
    TMC × List Ev :=
  let run_current := percentToCurrentSetting run_current_percent
  let hold_current := percentToCurrentSetting hold_current_percent
  let hold_delay := percentToHoldDelaySetting hold_delay_percent
  let dc := setField (setField (setField t.driver_current 8 5 run_current)
    0 5 hold_current) 16 4 hold_delay
  TMC.writeStoredDriverCurrent { t with driver_current := dc }

/-- `TMC2209::minimizeMotorCurrent` (robot.hpp lines 694–698). -/
def TMC.minimizeMotorCurrent (t : TMC) : TMC × List Ev :=
  let dc := setField (setField t.driver_current 8 5 CURRENT_SETTING_MIN)
    0 5 CURRENT_SETTING_MIN
  TMC.writeStoredDriverCurrent { t with driver_current := dc }

/-- `TMC2209::enableCoolStep` (robot.hpp lines 382–389): semin is bits 0–3 and
semax bits 8–11 of COOLCONF. -/
def TMC.enableCoolStep (t : TMC) (lower_threshold upper_threshold : Nat) :
    TMC × List Ev :=
  let lower := constrain_ lower_threshold SEMIN_MIN SEMIN_MAX
  let upper := constrain_ upper_threshold SEMAX_MIN SEMAX_MAX
  let cc := setField (setField t.cool_config 0 4 lower) 8 4 upper
  let t1 := { t with cool_config := cc }
  let (t2, evs) := t1.write ADDRESS_COOLCONF t1.cool_config
  ({ t2 with cool_step_enabled := true }, evs)

/-- `TMC2209::disableCoolStep` (robot.hpp lines 391–395). -/
def TMC.disableCoolStep (t : TMC) : TMC × List Ev :=
  let t1 := { t with cool_config := setField t.cool_config 0 4 SEMIN_OFF }
  let (t2, evs) := t1.write ADDRESS_COOLCONF t1.cool_config
  ({ t2 with cool_step_enabled := false }, evs)

/-- `TMC2209::getVersion` (robot.hpp lines 429–434): read IOIN and extract the
version field (bits 24–31 of the `Input` union). -/
def TMC.getVersion (t : TMC) : Nat × TMC × List Ev :=
  let (val, t1, evs) := t.read ADDRESS_IOIN
  (getField val 24 8, t1, evs)

/-- `TMC2209::isCommunicating` (robot.hpp lines 436–438). -/
def TMC.isCommunicating (t : TMC) : Bool × TMC × List Ev :=
  let (version, t1, evs) := t.getVersion
  (version == VERSION, t1, evs)

/-- `TMC2209::readAndStoreRegisters` (robot.hpp lines 681–685): refresh the
cached GCONF, CHOPCONF and PWMCONF from hardware. -/
def TMC.readAndStoreRegisters (t : TMC) : TMC × List Ev :=
  let (g, t1, e1) := t.read ADDRESS_GCONF
  let t1' := { t1 with global_config := g }
  let (c, t2, e2) := t1'.read ADDRESS_CHOPCONF
  let t2' := { t2 with chopper_config := c }
  let (p, t3, e3) := t2'.read ADDRESS_PWMCONF
  ({ t3 with pwm_config := p }, e1 ++ e2 ++ e3)

/-- `TMC2209::getMicrostepsPerStep` (robot.hpp lines 455–497): mres is bits
24–27 of CHOPCONF. -/
def TMC.getMicrostepsPerStep (t : TMC) : Nat :=
  1 <<< exponentOfMres (getField t.chopper_config 24 4)

/-- The `Settings` struct returned by `TMC2209::getSettings`. -/
structure Settings where
  is_communicating : Bool
  is_setup : Bool
  software_enabled : Bool
  microsteps_per_step : Nat
  inverse_motor_direction_enabled : Bool
  stealth_chop_enabled : Bool
  standstill_mode : Nat
  irun_percent : Nat
  irun_register_value : Nat
  ihold_percent : Nat
  ihold_register_value : Nat
  iholddelay_percent : Nat
  iholddelay_register_value : Nat
  automatic_current_scaling_enabled : Bool
  automatic_gradient_adaptation_enabled : Bool
  pwm_offset : Nat
  pwm_gradient : Nat
  cool_step_enabled : Bool
  analog_current_scaling_enabled : Bool
  internal_sense_resistors_enabled : Bool
deriving DecidableEq

/-- `TMC2209::getSettings` (robot.hpp lines 499–551).  Field positions
(modelled from the spec's register model; declarations live in the missing
header): GCONF — i_scale_analog bit 0, internal_rsense bit 1,
enable_spread_cycle bit 2, shaft bit 3, pdn_disable bit 6; CHOPCONF — toff
bits 0–3; PWMCONF — pwm_offset bits 0–7, pwm_grad bits 8–15, pwm_autoscale
bit 18, pwm_autograd bit 19, freewheel bits 20–21; IHOLD_IRUN as above. -/
def TMC.getSettings (t : TMC) : Settings × TMC × List Ev :=
  let (is_comm, t1, evs1) := t.isCommunicating
  if is_comm then
    let (t2, evs2) := t1.readAndStoreRegisters
    ({ is_communicating := true
       is_setup := getField t2.global_config 6 1 = 1
       software_enabled := getField t2.chopper_config 0 4 > TOFF_DISABLE
       microsteps_per_step := t2.getMicrostepsPerStep
       inverse_motor_direction_enabled := getField t2.global_config 3 1 = 1
       stealth_chop_enabled := ¬(getField t2.global_config 2 1 = 1)
       standstill_mode := getField t2.pwm_config 20 2
       irun_percent := currentSettingToPercent (getField t2.driver_current 8 5)
       irun_register_value := getField t2.driver_current 8 5
       ihold_percent := currentSettingToPercent (getField t2.driver_current 0 5)
       ihold_register_value := getField t2.driver_current 0 5
       iholddelay_percent := holdDelaySettingToPercent (getField t2.driver_current 16 4)
       iholddelay_register_value := getField t2.driver_current 16 4
       automatic_current_scaling_enabled := getField t2.pwm_config 18 1 = 1
       automatic_gradient_adaptation_enabled := getField t2.pwm_config 19 1 = 1
       pwm_offset := getField t2.pwm_config 0 8
       pwm_gradient := getField t2.pwm_config 8 8
       cool_step_enabled := t2.cool_step_enabled
       analog_current_scaling_enabled := getField t2.global_config 0 1 = 1
       internal_sense_resistors_enabled := getField t2.global_config 1 1 = 1 },
     t2, evs1 ++ evs2)
  else
    ({ is_communicating := false
       is_setup := false
       software_enabled := false
       microsteps_per_step := 0
       inverse_motor_direction_enabled := false
       stealth_chop_enabled := false
       standstill_mode := getField t1.pwm_config 20 2
       irun_percent := 0
       irun_register_value := 0
       ihold_percent := 0
       ihold_register_value := 0
       iholddelay_percent := 0
       iholddelay_register_value := 0
       automatic_current_scaling_enabled := false
       automatic_gradient_adaptation_enabled := false
       pwm_offset := 0
       pwm_gradient := 0
       cool_step_enabled := false
       analog_current_scaling_enabled := false
       internal_sense_resistors_enabled := false },
     t1, evs1)

/-! ## Reference (spec-side) definitions

These follow the spec's words, not the source; they are compared with the
source-derived definitions in the claim theorems. -/

/-- Little-endian packing of a byte list into one integer, as the C unions
overlay their `bytes` member over the per-byte fields. -/
def lePack : List Nat → Nat
  | [] => 0
  | b :: bs => b % 256 + 256 * lePack bs

/-- Reference CRC-8 bit update, following the spec's §4.1 words: if the top
bit of the running 8-bit CRC differs from the current data bit, shift left
and XOR with 0x07, otherwise just shift left, with 8-bit wraparound. -/
def crc8RefStep (crc : Nat) (bit : Bool) : Nat :=
  if (decide (128 ≤ crc)) ≠ bit then (crc * 2 % 256) ^^^ 0x07
  else crc * 2 % 256

/-- Reference CRC-8 byte update: process the 8 bits of `b`,
least-significant first. -/
def crc8RefByte (crc b : Nat) : Nat :=
  (List.range 8).foldl (fun c j => crc8RefStep c (b.testBit j)) crc

/-- Reference CRC-8 of a datagram byte list, following the spec's §4.1 words:
every byte except the final (CRC) byte, bits least-significant first,
starting from 0. -/
def crc8Ref (bytes : List Nat) : Nat :=
  bytes.dropLast.foldl crc8RefByte 0

/-- The claim's "nearest valid power-of-two boundary": among the valid
microsteps-per-step values 1, 2, 4, …, 256, the one closest to `n`
(earlier, i.e. smaller, value kept on ties). -/
def nearestValidPowerOfTwo (n : Nat) : Nat :=
  ((List.range 9).map (2 ^ ·)).foldl
    (fun best v => if Nat.dist n v < Nat.dist n best then v else best) 1

/-! ## Event classifiers and concrete instances used in the theorems -/

/-- Is the event a `HAL_UART_Transmit` of one datagram byte? -/
def Ev.isTxByte : Ev → Bool
  | Ev.txByte _ _ => true
  | _ => false

/-- Is the event a whole read-request datagram being initiated? -/
def Ev.isReadDatagram : Ev → Bool
  | Ev.readDatagram _ => true
  | _ => false

/-- The oracle state at the moment `TMC2209::read` performs its blocking
reply receive (i.e. after the bidirectional send of the read request): the
reply receive is the `rxCount`-th blocking receive of this world. -/
def TMC.replyWorld (t : TMC) (register_address : Nat) : World :=
  (sendDatagramBidirectional (readRequestDatagramBytes t.serial_address register_address)
    READ_REQUEST_DATAGRAM_SIZE t.huart).1

/-- The zeroed/disabled `Settings` record produced by the `else` branch of
`getSettings` (robot.hpp lines 528–548), parameterized by the one field that
branch copies from the cache: `standstill_mode`. -/
def defaultSettings (standstill_mode : Nat) : Settings :=
  ⟨false, false, false, 0, false, false, standstill_mode,
   0, 0, 0, 0, 0, 0, false, false, 0, 0, false, false, false⟩

/-- A transport oracle on which every transmit and every blocking receive
fails, with no pending bytes. -/
def failingWorld : World :=
  ⟨0, fun _ => false, 0, fun _ => false, fun _ => [], 0⟩

/-- A driver instance at address 0 on `failingWorld` whose cached PWM config
has freewheel (bits 20–21) set to 1 and all other cached registers zero. -/
def tFail : TMC := ⟨failingWorld, 0, 0, 0, 0x100000, 0, 0, false⟩

/-- A transport oracle on which every call succeeds and every blocking
receive delivers eight zero bytes. -/
def okZeroWorld : World :=
  ⟨0, fun _ => true, 0, fun _ => true, fun _ => List.replicate 8 0, 0⟩

/-- A driver instance at address 0 on `okZeroWorld` with all caches zero. -/
def tOkZero : TMC := ⟨okZeroWorld, 0, 0, 0, 0, 0, 0, false⟩

/-! ## General bit-manipulation lemmas -/

theorem and_255_eq_mod (y : Nat) : y &&& 255 = y % 256 := by
  have h := Nat.and_pow_two_sub_one_eq_mod y 8
  norm_num at h
  exact h

theorem lor_shiftLeft_eq_add (a b k : Nat) (hb : b < 2 ^ k) :
    b ||| a <<< k = b + 2 ^ k * a := by
  rw [Nat.shiftLeft_eq, Nat.lor_comm, mul_comm, ← Nat.mul_add_lt_is_or hb a,
    Nat.add_comm]

theorem getField_setField_self (b p w v : Nat) (h : p + w ≤ 32) :
    getField (setField b p w v) p w = v &&& (2 ^ w - 1) := by
  unfold getField setField
  apply Nat.eq_of_testBit_eq
  intro i
  simp only [Nat.testBit_and, Nat.testBit_or, Nat.testBit_xor, Nat.testBit_shiftLeft,
    Nat.testBit_shiftRight, Nat.testBit_two_pow_sub_one, ge_iff_le]
  by_cases hi : i < w
  · have h1 : p ≤ p + i := Nat.le_add_right p i
    have h2 : p + i - p = i := by omega
    have h3 : p + i < 32 := by omega
    simp [h1, h2, h3, hi]
  · simp [hi]

theorem getField_setField_of_disjoint (b p w v p' w' : Nat)
    (h32 : p' + w' ≤ 32) (hdisj : p' + w' ≤ p ∨ p + w ≤ p') :
    getField (setField b p w v) p' w' = getField b p' w' := by
  unfold getField setField
  apply Nat.eq_of_testBit_eq
  intro i
  simp only [Nat.testBit_and, Nat.testBit_or, Nat.testBit_xor, Nat.testBit_shiftLeft,
    Nat.testBit_shiftRight, Nat.testBit_two_pow_sub_one, ge_iff_le]
  by_cases hi : i < w'
  · have h3 : p' + i < 32 := by omega
    by_cases h5 : p ≤ p' + i
    · have h6 : ¬(p' + i - p < w) := by omega
      simp [h3, h5, h6, hi]
    · simp [h3, h5, hi]
  · simp [hi]

/-! ## Byte reversal: arithmetic form and involution -/

theorem reverseData_arith (x : Nat) :
    reverseData x = x / 16777216 % 256 + 256 * (x / 65536 % 256) +
      65536 * (x / 256 % 256) + 16777216 * (x % 256) := by
  have h0 : reverseData x =
      ((((x >>> 24) &&& 255) ||| (((x >>> 16) &&& 255) <<< 8)) |||
        (((x >>> 8) &&& 255) <<< 16)) ||| (((x >>> 0) &&& 255) <<< 24) := by
    simp [reverseData, List.range_succ, BITS_PER_BYTE, DATA_SIZE, BYTE_MAX_VALUE]
  have b24 : (x >>> 24) &&& 255 < 2 ^ 8 := Nat.and_lt_two_pow _ (by norm_num)
  have b16 : (x >>> 16) &&& 255 < 2 ^ 8 := Nat.and_lt_two_pow _ (by norm_num)
  have b8 : (x >>> 8) &&& 255 < 2 ^ 8 := Nat.and_lt_two_pow _ (by norm_num)
  have e1 := lor_shiftLeft_eq_add ((x >>> 16) &&& 255) ((x >>> 24) &&& 255) 8 b24
  have e2 := lor_shiftLeft_eq_add ((x >>> 8) &&& 255)
    (((x >>> 24) &&& 255) + 2 ^ 8 * ((x >>> 16) &&& 255)) 16 (by omega)
  have e3 := lor_shiftLeft_eq_add ((x >>> 0) &&& 255)
    ((((x >>> 24) &&& 255) + 2 ^ 8 * ((x >>> 16) &&& 255)) +
      2 ^ 16 * ((x >>> 8) &&& 255)) 24 (by omega)
  rw [h0, e1, e2, e3, and_255_eq_mod, and_255_eq_mod, and_255_eq_mod, and_255_eq_mod]
  simp only [Nat.shiftRight_eq_div_pow]
  norm_num

theorem byte_sum_div_16777216 (y0 y1 y2 y3 : Nat) (h0 : y0 < 256) (h1 : y1 < 256)
    (h2 : y2 < 256) :
    (y0 + 256 * y1 + 65536 * y2 + 16777216 * y3) / 16777216 % 256 = y3 % 256 := by
  omega

theorem byte_sum_div_65536 (y0 y1 y2 y3 : Nat) (h0 : y0 < 256) (h1 : y1 < 256)
    (h2 : y2 < 256) :
    (y0 + 256 * y1 + 65536 * y2 + 16777216 * y3) / 65536 % 256 = y2 := by
  omega

theorem byte_sum_div_256 (y0 y1 y2 y3 : Nat) (h0 : y0 < 256) (h1 : y1 < 256)
    (h2 : y2 < 256) :
    (y0 + 256 * y1 + 65536 * y2 + 16777216 * y3) / 256 % 256 = y1 := by
  omega

theorem byte_sum_mod_256 (y0 y1 y2 y3 : Nat) (h0 : y0 < 256) :
    (y0 + 256 * y1 + 65536 * y2 + 16777216 * y3) % 256 = y0 := by
  omega

/-- C9: `reverseData` is an involution on 32-bit values: applying the
byte-order swap twice returns the original value. -/
theorem reverseData_involution (x : Nat) (h : x < 2 ^ 32) :
    reverseData (reverseData x) = x := by
  have h' : x < 4294967296 := by norm_num at h; exact h
  rw [reverseData_arith x, reverseData_arith]
  generalize hy0 : x / 16777216 % 256 = y0
  generalize hy1 : x / 65536 % 256 = y1
  generalize hy2 : x / 256 % 256 = y2
  generalize hy3 : x % 256 = y3
  have b0 : y0 < 256 := by omega
  have b1 : y1 < 256 := by omega
  have b2 : y2 < 256 := by omega
  have b3 : y3 < 256 := by omega
  rw [byte_sum_div_16777216 y0 y1 y2 y3 b0 b1 b2,
    byte_sum_div_65536 y0 y1 y2 y3 b0 b1 b2,
    byte_sum_div_256 y0 y1 y2 y3 b0 b1 b2,
    byte_sum_mod_256 y0 y1 y2 y3 b0]
  omega

/-- Witness for C9: the involution at the concrete 32-bit value `0x12345678`. -/
theorem reverseData_involution_witness :
    (0x12345678 : Nat) < 2 ^ 32 ∧
      reverseData (reverseData 0x12345678) = 0x12345678 :=
  ⟨by norm_num, reverseData_involution 0x12345678 (by norm_num)⟩

set_option maxRecDepth 4000

/-- C8: `percentToCurrentSetting` maps percent 0 to the minimum current
setting and percent 100 to the maximum, is monotonic non-decreasing on
[0, 100], and clamps any out-of-range `uint8_t` percent to 100 first (no
error is ever raised: the function is total). -/
theorem percentToCurrentSetting_saturates :
    percentToCurrentSetting PERCENT_MIN = CURRENT_SETTING_MIN ∧
    percentToCurrentSetting PERCENT_MAX = CURRENT_SETTING_MAX ∧
    (∀ p, p ≤ 100 → ∀ q, q ≤ p →
      percentToCurrentSetting q ≤ percentToCurrentSetting p) ∧
    (∀ p, p < 256 → 100 < p →
      percentToCurrentSetting p = percentToCurrentSetting 100) := by
  decide

/-- Witness for C8: monotonicity applied at 50 ≤ 100 and clamping applied
at the out-of-range percent 200. -/
theorem percentToCurrentSetting_saturates_witness :
    percentToCurrentSetting 50 ≤ percentToCurrentSetting 100 ∧
      percentToCurrentSetting 200 = percentToCurrentSetting 100 :=
  ⟨percentToCurrentSetting_saturates.2.2.1 100 (Nat.le_refl 100) 50 (by norm_num),
   percentToCurrentSetting_saturates.2.2.2 200 (by norm_num) (by norm_num)⟩

/-! ## Microstep exponent: characterization via `Nat.log2` -/

theorem countShifts_eq_log2 (m : Nat) :
    countShifts m = if m = 0 then 0 else Nat.log2 m + 1 := by
  induction m using Nat.strong_induction_on with
  | _ m ih =>
    rw [countShifts]
    by_cases h : 0 < m
    · rw [dif_pos h]
      have hdiv : m >>> 1 = m / 2 := by simp [Nat.shiftRight_eq_div_pow]
      rw [hdiv, ih (m / 2) (Nat.div_lt_self h (by norm_num))]
      by_cases h2 : m / 2 = 0
      · have hm : m = 1 := by omega
        subst hm
        simp [Nat.log2]
      · rw [if_neg h2, if_neg (by omega : ¬m = 0)]
        conv_rhs => rw [Nat.log2]
        rw [if_pos (by omega : 2 ≤ m)]
    · rw [dif_neg h, if_pos (by omega)]

theorem setMicrostepsPerStep_exponent_eq_log2 (n : Nat) :
    setMicrostepsPerStep_exponent n = Nat.log2 n := by
  show countShifts (n >>> 1) = Nat.log2 n
  rw [countShifts_eq_log2]
  have hdiv : n >>> 1 = n / 2 := by simp [Nat.shiftRight_eq_div_pow]
  rw [hdiv]
  by_cases h : n / 2 = 0
  · rw [if_pos h]
    have hn : n < 2 := by omega
    interval_cases n <;> simp [Nat.log2]
  · rw [if_neg h]
    conv_rhs => rw [Nat.log2]
    rw [if_pos (by omega : 2 ≤ n)]

theorem mresOfExponent_min_eight (e : Nat) :
    mresOfExponent e = mresOfExponent (min e 8) := by
  by_cases h : e ≤ 8
  · rw [Nat.min_eq_left h]
  · have h8 : min e 8 = 8 := by omega
    rw [h8]
    obtain ⟨k, rfl⟩ : ∃ k, e = k + 9 := ⟨e - 9, by omega⟩
    rfl

/-- C5 counterexample: the request 7 is *not* clamped to the nearest valid
power-of-two boundary (which is 8) before the exponent mapping:
`setMicrostepsPerStep` computes exponent 2 (i.e. 4 microsteps) for request 7,
while mapping the nearest boundary 8 would give exponent 3, a different mres
code. -/
theorem setMicrostepsPerStep_not_nearest :
    setMicrostepsPerStep_exponent 7 = 2 ∧
    nearestValidPowerOfTwo 7 = 8 ∧
    mresOfExponent (setMicrostepsPerStep_exponent 7) ≠
      mresOfExponent (setMicrostepsPerStep_exponent (nearestValidPowerOfTwo 7)) := by
  have h7 : setMicrostepsPerStep_exponent 7 = 2 := by
    rw [setMicrostepsPerStep_exponent_eq_log2]
    simp [Nat.log2]
  have hn : nearestValidPowerOfTwo 7 = 8 := by decide
  have h8 : setMicrostepsPerStep_exponent 8 = 3 := by
    rw [setMicrostepsPerStep_exponent_eq_log2]
    simp [Nat.log2]
  refine ⟨h7, hn, ?_⟩
  rw [h7, hn, h8]
  decide

/-- C5 (amended): a power-of-two request `2^k` (k ≤ 8) yields exponent `k`;
any other request is rounded *down* to the exponent of the largest power of
two not exceeding it (`Nat.log2`), clamped to at most 8 by the switch default
(a request of 0 behaves as 1, since `Nat.log2 0 = 0`). -/
theorem setMicrostepsPerStep_rounds_down :
    (∀ k, k ≤ 8 → setMicrostepsPerStep_exponent (2 ^ k) = k) ∧
    (∀ n, n < 65536 →
      mresOfExponent (setMicrostepsPerStep_exponent n) =
        mresOfExponent (min (Nat.log2 n) 8)) := by
  constructor
  · intro k _
    rw [setMicrostepsPerStep_exponent_eq_log2, Nat.log2_eq_log_two]
    exact Nat.log_pow (by norm_num) k
  · intro n _
    rw [setMicrostepsPerStep_exponent_eq_log2, mresOfExponent_min_eight]

/-- Witness for C5 (amended): the power-of-two branch at `2^4 = 16` and the
general branch at the non-power-of-two request 24. -/
theorem setMicrostepsPerStep_rounds_down_witness :
    setMicrostepsPerStep_exponent (2 ^ 4) = 4 ∧
      mresOfExponent (setMicrostepsPerStep_exponent 24) =
        mresOfExponent (min (Nat.log2 24) 8) :=
  ⟨setMicrostepsPerStep_rounds_down.1 4 (by norm_num),
   setMicrostepsPerStep_rounds_down.2 24 (by norm_num)⟩

/-! ## CRC-8: the source engine matches the spec-side reference -/

theorem crcStep_lt (c b : Nat) : crcStep c b < 256 := by
  unfold crcStep
  split
  · exact Nat.mod_lt _ (by norm_num)
  · exact Nat.mod_lt _ (by norm_num)

theorem crcStep_eq_refStep_bounded :
    ∀ c, c < 256 → ∀ r, r < 2 →
      (if (c >>> 7) ^^^ r ≠ 0 then ((c <<< 1) ^^^ 0x07) % 256 else (c <<< 1) % 256) =
        (if decide (128 ≤ c) ≠ decide (r = 1) then (c * 2 % 256) ^^^ 0x07
         else c * 2 % 256) := by
  decide

theorem crcStep_eq_refStep (c b : Nat) (hc : c < 256) :
    crcStep c b = crc8RefStep c (b.testBit 0) := by
  have hb : b &&& 1 = b % 2 := Nat.and_one_is_mod b
  have h := crcStep_eq_refStep_bounded c hc (b % 2) (Nat.mod_lt b (by norm_num))
  unfold crcStep crc8RefStep
  rw [Nat.testBit_zero, hb]
  exact h

theorem crc8RefStep_lt (c : Nat) (bit : Bool) : crc8RefStep c bit < 256 := by
  unfold crc8RefStep
  split
  · have h : (c * 2 % 256) ^^^ 0x07 < 2 ^ 8 :=
      Nat.xor_lt_two_pow (by omega) (by norm_num)
    simpa using h
  · exact Nat.mod_lt _ (by norm_num)

theorem crc8RefByte_lt (c b : Nat) (hc : c < 256) : crc8RefByte c b < 256 := by
  unfold crc8RefByte
  have key : ∀ (l : List Nat) (c' : Nat), c' < 256 →
      l.foldl (fun c'' i => crc8RefStep c'' (b.testBit i)) c' < 256 := by
    intro l
    induction l with
    | nil => intro c' hc'; exact hc'
    | cons x xs ih => intro c' _; exact ih _ (crc8RefStep_lt c' _)
  exact key _ c hc

theorem crcByteBits_eq_refFold (j : Nat) :
    ∀ b c, c < 256 →
      crcByteBits j b c =
        (List.range j).foldl (fun c' i => crc8RefStep c' (b.testBit i)) c := by
  induction j with
  | zero => intro b c _; rfl
  | succ j ih =>
    intro b c hc
    have h1 : crcByteBits (j + 1) b c = crcByteBits j (b >>> 1) (crcStep c b) := rfl
    rw [h1, ih (b >>> 1) (crcStep c b) (crcStep_lt c b), crcStep_eq_refStep c b hc,
      List.range_succ_eq_map]
    simp only [List.foldl_cons, List.foldl_map]
    have hsh : ∀ i : Nat, (b >>> 1).testBit i = b.testBit (Nat.succ i) := by
      intro i
      rw [Nat.testBit_succ]
      congr 1
    simp only [hsh]

theorem lePack_shift (b : Nat) (bs : List Nat) (i : Nat) :
    lePack (b :: bs) >>> ((i + 1) * 8) = lePack bs >>> (i * 8) := by
  show (b % 256 + 256 * lePack bs) >>> ((i + 1) * 8) = lePack bs >>> (i * 8)
  simp only [Nat.shiftRight_eq_div_pow]
  have h1 : (i + 1) * 8 = 8 + i * 8 := by ring
  rw [h1, pow_add, ← Nat.div_div_eq_div_mul]
  norm_num
  congr 1
  omega

theorem calculateCrcAux_shift (b : Nat) (bs : List Nat) :
    ∀ k i c, calculateCrcAux (lePack (b :: bs)) k (i + 1) c =
      calculateCrcAux (lePack bs) k i c := by
  intro k
  induction k with
  | zero => intro i c; rfl
  | succ k ih =>
    intro i c
    simp only [calculateCrcAux, BITS_PER_BYTE, BYTE_MAX_VALUE]
    rw [lePack_shift]
    exact ih (i + 1) _

theorem calculateCrcAux_eq_refFold (bs : List Nat) :
    ∀ k c, k ≤ bs.length → (∀ x ∈ bs, x < 256) → c < 256 →
      calculateCrcAux (lePack bs) k 0 c = (bs.take k).foldl crc8RefByte c := by
  induction bs with
  | nil =>
    intro k c hk _ _
    have hk0 : k = 0 := by simpa using hk
    subst hk0
    rfl
  | cons b bs ih =>
    intro k c hk hb hc
    match k with
    | 0 => rfl
    | k + 1 =>
      simp only [calculateCrcAux, BITS_PER_BYTE, BYTE_MAX_VALUE]
      have hbyte : (lePack (b :: bs) >>> (0 * 8)) &&& 255 = b := by
        show (b % 256 + 256 * lePack bs) >>> 0 &&& 255 = b
        rw [Nat.shiftRight_zero, and_255_eq_mod]
        have hblt : b < 256 := hb b (by simp)
        omega
      rw [hbyte, calculateCrcAux_shift]
      have hcb : crcByteBits 8 b c = crc8RefByte c b := by
        rw [crcByteBits_eq_refFold 8 b c hc]
        rfl
      rw [hcb, ih k (crc8RefByte c b) (by simpa using hk)
        (fun x hx => hb x (by simp [hx])) (crc8RefByte_lt c b hc)]
      rfl

/-- C1: for every datagram byte sequence, `calculateCrc` processes exactly the
first `n - 1` bytes (the trailing CRC byte is excluded) and agrees with the
independent, list-based reference CRC-8 (polynomial 0x07, bits processed
least-significant first, 8-bit wraparound); both are pure functions, hence
deterministic.  The conjuncts give concrete wire datagrams (read requests for
GCONF and DRV_STATUS, and a write of 500 to VACTUAL) whose trailing byte is
the CRC of the preceding bytes. -/
theorem calculateCrc_matches_reference :
    (∀ bs : List Nat, (∀ x ∈ bs, x < 256) →
      calculateCrc (lePack bs) bs.length = crc8Ref bs) ∧
    calculateCrc (lePack [0x05, 0x00, 0x00, 0x48]) 4 = 0x48 ∧
    calculateCrc (lePack [0x05, 0x00, 0x6F, 0x84]) 4 = 0x84 ∧
    calculateCrc (lePack [0x05, 0x00, 0x80, 0x00, 0x00, 0x01, 0xF4, 0x32]) 8 = 0x32 := by
  refine ⟨?_, by decide, by decide, by decide⟩
  intro bs hb
  unfold calculateCrc crc8Ref
  rw [List.dropLast_eq_take]
  exact calculateCrcAux_eq_refFold bs (bs.length - 1) 0 (by omega) hb (by norm_num)

/-- Witness for C1: the general correspondence applied to the concrete
4-byte datagram `[0x05, 0x00, 0x6F, 0x00]`. -/
theorem calculateCrc_matches_reference_witness :
    (∀ x ∈ [0x05, 0x00, 0x6F, 0x00], x < 256) ∧
      calculateCrc (lePack [0x05, 0x00, 0x6F, 0x00]) 4 =
        crc8Ref [0x05, 0x00, 0x6F, 0x00] :=
  ⟨by decide, calculateCrc_matches_reference.1 [0x05, 0x00, 0x6F, 0x00] (by decide)⟩

/-! ## Trace lemmas for the unidirectional send loop -/

theorem sendLoopUni_succ (B k i : Nat) (w : World) :
    sendLoopUni B (k + 1) i w =
      ((sendLoopUni B k (i + 1) { w with txCount := w.txCount + 1 }).1,
       (if w.txOk w.txCount then
          [Ev.txByte ((B >>> (i * BITS_PER_BYTE)) &&& BYTE_MAX_VALUE) (w.txOk w.txCount)]
        else
          [Ev.txByte ((B >>> (i * BITS_PER_BYTE)) &&& BYTE_MAX_VALUE) (w.txOk w.txCount),
           Ev.ledGreenOn]) ++
       (sendLoopUni B k (i + 1) { w with txCount := w.txCount + 1 }).2) := by
  rcases h : sendLoopUni B k (i + 1) { w with txCount := w.txCount + 1 } with ⟨w2, rest⟩
  by_cases hok : w.txOk w.txCount
  · simp [sendLoopUni, World.transmit, h, hok]
  · simp [sendLoopUni, World.transmit, h, hok]

theorem beq_txByte_led (b : Nat) (ok : Bool) :
    (Ev.txByte b ok == Ev.ledGreenOn) = false := rfl

theorem beq_led_led : (Ev.ledGreenOn == Ev.ledGreenOn) = true := rfl

theorem txOk_shift_lambda (w : World) :
    ((fun j => !w.txOk (w.txCount + j)) ∘ Nat.succ) =
      (fun j => !w.txOk (w.txCount + 1 + j)) := by
  funext j
  simp only [Function.comp]
  congr 2
  omega

theorem sendLoopUni_txByte_count (B : Nat) :
    ∀ k i w, ((sendLoopUni B k i w).2).countP Ev.isTxByte = k := by
  intro k
  induction k with
  | zero => intro i w; rfl
  | succ k ih =>
    intro i w
    rw [sendLoopUni_succ]
    by_cases hok : w.txOk w.txCount
    · simp only [hok, if_true, List.countP_append, List.countP_cons, List.countP_nil,
        ih (i + 1)]
      simp only [Ev.isTxByte, if_true]
      omega
    · simp only [hok, Bool.false_eq_true, if_false, List.countP_append, List.countP_cons,
        List.countP_nil, ih (i + 1)]
      simp only [Ev.isTxByte, if_true, if_false, Bool.false_eq_true]
      omega

theorem sendLoopUni_led_count (B : Nat) :
    ∀ k i w, ((sendLoopUni B k i w).2).countP (· == Ev.ledGreenOn) =
      (List.range k).countP (fun j => !w.txOk (w.txCount + j)) := by
  intro k
  induction k with
  | zero => intro i w; rfl
  | succ k ih =>
    intro i w
    rw [sendLoopUni_succ, List.range_succ_eq_map]
    by_cases hok : w.txOk w.txCount
    · simp only [hok, if_true, List.countP_append, List.countP_cons, List.countP_nil,
        List.countP_map, ih (i + 1), txOk_shift_lambda, beq_txByte_led]
      simp [hok]
    · simp only [hok, Bool.false_eq_true, if_false, List.countP_append, List.countP_cons,
        List.countP_nil, List.countP_map, ih (i + 1), txOk_shift_lambda, beq_txByte_led,
        beq_led_led]
      simp [hok]
      omega

theorem sendLoopUni_events (B : Nat) :
    ∀ k i w e, e ∈ (sendLoopUni B k i w).2 →
      Ev.isTxByte e = true ∨ e = Ev.ledGreenOn := by
  intro k
  induction k with
  | zero => intro i w e he; simp [sendLoopUni] at he
  | succ k ih =>
    intro i w e he
    rw [sendLoopUni_succ] at he
    by_cases hok : w.txOk w.txCount
    · simp only [hok, if_true, List.mem_append, List.mem_singleton] at he
      rcases he with he | he
      · left; rw [he]; rfl
      · exact ih (i + 1) _ e he
    · simp only [hok, Bool.false_eq_true, if_false, List.mem_append, List.mem_cons,
        List.not_mem_nil, or_false] at he
      rcases he with (he | he) | he
      · left; rw [he]; rfl
      · right; exact he
      · exact ih (i + 1) _ e he

/-! ## Trace lemmas for the bidirectional send loop -/

theorem sendLoopBidi_succ (B k i : Nat) (w : World) :
    sendLoopBidi B (k + 1) i w =
      (if w.txOk w.txCount then
        ((sendLoopBidi B k (i + 1) { w with txCount := w.txCount + 1 }).1,
         (sendLoopBidi B k (i + 1) { w with txCount := w.txCount + 1 }).2.1,
         Ev.txByte ((B >>> (i * BITS_PER_BYTE)) &&& BYTE_MAX_VALUE) (w.txOk w.txCount) ::
           (sendLoopBidi B k (i + 1) { w with txCount := w.txCount + 1 }).2.2)
      else
        (false, { w with txCount := w.txCount + 1 },
         [Ev.txByte ((B >>> (i * BITS_PER_BYTE)) &&& BYTE_MAX_VALUE) (w.txOk w.txCount),
          Ev.errorPinSet])) := by
  rcases h : sendLoopBidi B k (i + 1) { w with txCount := w.txCount + 1 } with ⟨c, w2, rest⟩
  by_cases hok : w.txOk w.txCount
  · simp [sendLoopBidi, World.transmit, h, hok]
  · simp [sendLoopBidi, World.transmit, h, hok]

theorem sendLoopBidi_events (B : Nat) :
    ∀ k i w e, e ∈ (sendLoopBidi B k i w).2.2 →
      Ev.isTxByte e = true ∨ e = Ev.errorPinSet := by
  intro k
  induction k with
  | zero => intro i w e he; simp [sendLoopBidi] at he
  | succ k ih =>
    intro i w e he
    rw [sendLoopBidi_succ] at he
    by_cases hok : w.txOk w.txCount
    · simp only [hok, if_true, List.mem_cons] at he
      rcases he with he | he
      · left; rw [he]; rfl
      · exact ih (i + 1) _ e he
    · simp only [hok, Bool.false_eq_true, if_false, List.mem_cons, List.not_mem_nil,
        or_false] at he
      rcases he with he | he
      · left; rw [he]; rfl
      · right; exact he

theorem sendLoopBidi_fail (B : Nat) :
    ∀ n k i w, n < k →
      (∀ j, j < n → w.txOk (w.txCount + j) = true) →
      w.txOk (w.txCount + n) = false →
      (sendLoopBidi B k i w).1 = false ∧
        ((sendLoopBidi B k i w).2.2).countP Ev.isTxByte = n + 1 := by
  intro n
  induction n with
  | zero =>
    intro k i w hk _ hfail
    match k, hk with
    | k + 1, _ =>
      rw [sendLoopBidi_succ]
      rw [Nat.add_zero] at hfail
      simp [hfail, Ev.isTxByte, List.countP_cons]
  | succ n ih =>
    intro k i w hk hok hfail
    match k, hk with
    | k + 1, hk =>
      have h0 : w.txOk w.txCount = true := by
        have := hok 0 (by omega)
        simpa using this
      rw [sendLoopBidi_succ]
      have hrec := ih k (i + 1) { w with txCount := w.txCount + 1 } (by omega)
        (fun j hj => by
          have := hok (j + 1) (by omega)
          simpa [Nat.add_assoc, Nat.add_comm, Nat.add_left_comm] using this)
        (by
          have heq : w.txCount + 1 + n = w.txCount + (n + 1) := by omega
          rw [heq]
          exact hfail)
      simp only [h0, if_true, List.countP_cons, hrec.1, hrec.2]
      refine ⟨trivial, ?_⟩
      simp [Ev.isTxByte]

/-! ## Transaction-level characterizations -/

theorem countP_replicate_drain (m : Nat) :
    (List.replicate m Ev.drainByte).countP Ev.isTxByte = 0 := by
  rw [List.countP_eq_zero]
  intro a ha
  rw [((List.mem_replicate).1 ha).2]
  simp [Ev.isTxByte]

theorem sendDatagramBidirectional_fail (B sz : Nat) (w : World) (n : Nat)
    (hn : n < sz) (hok : ∀ j, j < n → w.txOk (w.txCount + j) = true)
    (hfail : w.txOk (w.txCount + n) = false) :
    ((sendDatagramBidirectional B sz w).2).countP Ev.isTxByte = n + 1 ∧
    ∀ e ∈ (sendDatagramBidirectional B sz w).2,
      Ev.isTxByte e = true ∨ e = Ev.errorPinSet ∨ e = Ev.drainByte := by
  have hfl := sendLoopBidi_fail B n sz 0 { w with pending := 0 } hn
    (by simpa using hok) (by simpa using hfail)
  unfold sendDatagramBidirectional clearRxBuffer
  dsimp only
  rcases h : sendLoopBidi B sz 0 { w with pending := 0 } with ⟨c, w2, tr⟩
  rw [h] at hfl
  have hc : c = false := hfl.1
  subst hc
  simp only [Bool.false_eq_true, if_false]
  constructor
  · simp [List.countP_append, countP_replicate_drain, hfl.2]
  · intro e he
    rcases (List.mem_append).1 he with he | he
    · right; right; exact ((List.mem_replicate).1 he).2
    · have hev := sendLoopBidi_events B sz 0 { w with pending := 0 } e
        (by rw [h]; exact he)
      rcases hev with hev | hev
      · left; exact hev
      · right; left; exact hev

theorem sendDatagramBidirectional_events (B sz : Nat) (w : World) :
    ∀ e ∈ (sendDatagramBidirectional B sz w).2,
      Ev.isTxByte e = true ∨ e = Ev.errorPinSet ∨ e = Ev.drainByte ∨
        ∃ ok, e = Ev.rxEcho ok := by
  unfold sendDatagramBidirectional clearRxBuffer
  dsimp only
  rcases h : sendLoopBidi B sz 0 { w with pending := 0 } with ⟨c, w2, tr⟩
  intro e he
  have htr : ∀ x ∈ tr, Ev.isTxByte x = true ∨ x = Ev.errorPinSet := by
    intro x hx
    exact sendLoopBidi_events B sz 0 { w with pending := 0 } x (by rw [h]; exact hx)
  rcases hcc : c with _ | _
  · subst hcc
    simp only [Bool.false_eq_true, if_false] at he
    rcases (List.mem_append).1 he with he | he
    · right; right; left; exact ((List.mem_replicate).1 he).2
    · rcases htr e he with hev | hev
      · left; exact hev
      · right; left; exact hev
  · subst hcc
    simp only [if_true, World.receive] at he
    rcases (List.mem_append).1 he with he | he
    · rcases (List.mem_append).1 he with he | he
      · right; right; left; exact ((List.mem_replicate).1 he).2
      · rcases htr e he with hev | hev
        · left; exact hev
        · right; left; exact hev
    · right; right; right
      exact ⟨_, by simpa using he⟩

theorem TMC.write_def (t : TMC) (register_address data : Nat) :
    t.write register_address data =
      ({ t with huart :=
          (sendDatagramUnidirectional (writeDatagramBytes t.serial_address register_address data)
            WRITE_READ_REPLY_DATAGRAM_SIZE t.huart).1 },
       Ev.writeDatagram register_address ::
         (sendDatagramUnidirectional (writeDatagramBytes t.serial_address register_address data)
           WRITE_READ_REPLY_DATAGRAM_SIZE t.huart).2) := by
  unfold TMC.write
  rcases h : sendDatagramUnidirectional
    (writeDatagramBytes t.serial_address register_address data)
    WRITE_READ_REPLY_DATAGRAM_SIZE t.huart with ⟨w2, evs⟩
  simp [h]

theorem TMC.read_def (t : TMC) (register_address : Nat) :
    t.read register_address =
      ((if (t.replyWorld register_address).rxOk (t.replyWorld register_address).rxCount then
          reverseData (replyDatagramData
            ((t.replyWorld register_address).rxData (t.replyWorld register_address).rxCount))
        else 0),
       { t with huart := { t.replyWorld register_address with
           rxCount := (t.replyWorld register_address).rxCount + 1 } },
       Ev.readDatagram register_address ::
         ((sendDatagramBidirectional (readRequestDatagramBytes t.serial_address register_address)
             READ_REQUEST_DATAGRAM_SIZE t.huart).2 ++
          [Ev.rxReply
            ((t.replyWorld register_address).rxOk (t.replyWorld register_address).rxCount)])) := by
  unfold TMC.read TMC.replyWorld
  rcases h : sendDatagramBidirectional
    (readRequestDatagramBytes t.serial_address register_address)
    READ_REQUEST_DATAGRAM_SIZE t.huart with ⟨w1, evs1⟩
  by_cases hok : w1.rxOk w1.rxCount
  · simp [h, World.receive, hok]
  · simp [h, World.receive, hok]

/-! ## Read/write transaction claims (C2, C3, C4) -/

theorem sendDatagramUnidirectional_eq (B sz : Nat) (w : World) :
    sendDatagramUnidirectional B sz w = sendLoopUni B sz 0 w := rfl

/-- C3 counterexample: on a transport where every transmit fails, the very
first byte's transmit returns non-success and yet all 8 bytes of the write
datagram are still attempted — the write transaction does not abort. -/
theorem write_transmits_despite_failure :
    tFail.huart.txOk tFail.huart.txCount = false ∧
    ((tFail.write ADDRESS_GCONF 0).2).countP Ev.isTxByte = 8 := by
  decide

/-- C3 (amended): a write transaction always attempts all 8 datagram bytes,
regardless of transmit failures; each failed transmit only turns on the green
LED (one event per failure), and nothing is returned or surfaced. -/
theorem write_continues_after_transmit_failure (t : TMC) (register_address data : Nat) :
    ((t.write register_address data).2).countP Ev.isTxByte =
      WRITE_READ_REPLY_DATAGRAM_SIZE ∧
    ((t.write register_address data).2).countP (· == Ev.ledGreenOn) =
      (List.range WRITE_READ_REPLY_DATAGRAM_SIZE).countP
        (fun j => !t.huart.txOk (t.huart.txCount + j)) := by
  rw [TMC.write_def, sendDatagramUnidirectional_eq]
  constructor
  · rw [List.countP_cons_of_neg _ _ (by simp [Ev.isTxByte])]
    exact sendLoopUni_txByte_count _ _ _ _
  · rw [List.countP_cons_of_neg _ _
      (by simp [show (Ev.writeDatagram register_address == Ev.ledGreenOn) = false from rfl])]
    exact sendLoopUni_led_count _ _ _ _

/-- C2 counterexample: on a transport where every transmit fails, the
transmission of the first read-request byte fails, and yet `read` still
attempts to receive the reply datagram (an `rxReply` event occurs) and
returns the sentinel 0 rather than surfacing a failure. -/
theorem read_receives_reply_despite_tx_failure :
    tFail.huart.txOk tFail.huart.txCount = false ∧
    Ev.rxReply false ∈ (tFail.read ADDRESS_GCONF).2.2 ∧
    (tFail.read ADDRESS_GCONF).1 = 0 := by
  decide

/-- C2 (amended): if the transmit of byte `n` of the read-request datagram is
the first to fail, `sendDatagramBidirectional` stops transmitting (exactly
`n + 1` transmit attempts occur) and skips the echo receive, but `read`
nevertheless proceeds to the receive phase and attempts to receive the reply
datagram. -/
theorem read_aborts_send_but_attempts_reply (t : TMC) (register_address n : Nat)
    (hn : n < READ_REQUEST_DATAGRAM_SIZE)
    (hok : ∀ j, j < n → t.huart.txOk (t.huart.txCount + j) = true)
    (hfail : t.huart.txOk (t.huart.txCount + n) = false) :
    ((t.read register_address).2.2).countP Ev.isTxByte = n + 1 ∧
    (∀ ok, Ev.rxEcho ok ∉ (t.read register_address).2.2) ∧
    Ev.rxReply ((t.replyWorld register_address).rxOk
        (t.replyWorld register_address).rxCount) ∈
      (t.read register_address).2.2 := by
  have hsdb := sendDatagramBidirectional_fail
    (readRequestDatagramBytes t.serial_address register_address)
    READ_REQUEST_DATAGRAM_SIZE t.huart n hn hok hfail
  rw [TMC.read_def]
  refine ⟨?_, ?_, ?_⟩
  · rw [List.countP_cons_of_neg _ _ (by simp [Ev.isTxByte]), List.countP_append, hsdb.1]
    simp [Ev.isTxByte]
  · intro ok hmem
    rcases (List.mem_cons).1 hmem with hmem | hmem
    · simp at hmem
    · rcases (List.mem_append).1 hmem with hmem | hmem
      · rcases hsdb.2 _ hmem with hc | hc | hc
        · simp [Ev.isTxByte] at hc
        · simp at hc
        · simp at hc
      · simp at hmem
  · simp

/-- Witness for C2 (amended): applied on `tFail` with the first byte (n = 0)
failing. -/
theorem read_aborts_send_but_attempts_reply_witness :
    ((tFail.read ADDRESS_GCONF).2.2).countP Ev.isTxByte = 0 + 1 ∧
    (∀ ok, Ev.rxEcho ok ∉ (tFail.read ADDRESS_GCONF).2.2) ∧
    Ev.rxReply ((tFail.replyWorld ADDRESS_GCONF).rxOk
        (tFail.replyWorld ADDRESS_GCONF).rxCount) ∈
      (tFail.read ADDRESS_GCONF).2.2 :=
  read_aborts_send_but_attempts_reply tFail ADDRESS_GCONF 0 (by decide)
    (fun j hj => absurd hj (Nat.not_lt_zero j)) (by decide)

/-- C4: a read whose blocking reply receive returns non-success (timeout or
transport failure) returns the sentinel 0 rather than raising any error; and
a successful reply consisting of all-zero bytes also yields 0, so the two are
indistinguishable at the API boundary. -/
theorem read_timeout_returns_sentinel_zero :
    (∀ (t : TMC) (register_address : Nat),
      (t.replyWorld register_address).rxOk (t.replyWorld register_address).rxCount =
        false →
      (t.read register_address).1 = 0) ∧
    (∀ (t : TMC) (register_address : Nat),
      (t.replyWorld register_address).rxOk (t.replyWorld register_address).rxCount =
        true →
      (t.replyWorld register_address).rxData (t.replyWorld register_address).rxCount =
        List.replicate 8 0 →
      (t.read register_address).1 = 0) := by
  constructor
  · intro t register_address h
    rw [TMC.read_def]
    simp [h]
  · intro t register_address h hdata
    rw [TMC.read_def]
    simp only [h, if_true, hdata]
    decide

/-- Witness for C4: a timed-out read on `tFail` and an all-zero successful
read on `tOkZero`, both returning 0. -/
theorem read_timeout_returns_sentinel_zero_witness :
    (tFail.read ADDRESS_CHOPCONF).1 = 0 ∧ (tOkZero.read ADDRESS_CHOPCONF).1 = 0 :=
  ⟨read_timeout_returns_sentinel_zero.1 tFail ADDRESS_CHOPCONF (by decide),
   read_timeout_returns_sentinel_zero.2 tOkZero ADDRESS_CHOPCONF (by decide) (by decide)⟩

/-! ## Cached-register frame effects (C6) and cool-step invariant helpers -/

theorem writeStoredDriverCurrent_fields (t : TMC) :
    ((t.writeStoredDriverCurrent).1).driver_current = t.driver_current ∧
    ((t.writeStoredDriverCurrent).1).cool_config =
      setField t.cool_config 15 1
        (if getField t.driver_current 8 5 ≥ SEIMIN_UPPER_CURRENT_LIMIT
         then SEIMIN_UPPER_SETTING else SEIMIN_LOWER_SETTING) ∧
    ((t.writeStoredDriverCurrent).1).cool_step_enabled = t.cool_step_enabled := by
  unfold TMC.writeStoredDriverCurrent
  simp only [TMC.write_def]
  by_cases hcs : t.cool_step_enabled
  · simp [hcs]
  · simp [hcs]

theorem writeStoredDriverCurrent_coolconf_write (t : TMC) :
    Ev.writeDatagram ADDRESS_COOLCONF ∈ (t.writeStoredDriverCurrent).2 ↔
      t.cool_step_enabled = true := by
  unfold TMC.writeStoredDriverCurrent
  simp only [TMC.write_def, sendDatagramUnidirectional_eq]
  by_cases hcs : t.cool_step_enabled
  · simp only [hcs, if_true]
    constructor
    · intro _; trivial
    · intro _
      simp [List.mem_append, List.mem_cons]
  · simp only [hcs, Bool.false_eq_true, if_false]
    constructor
    · intro hmem
      rcases (List.mem_cons).1 hmem with hmem | hmem
      · simp [ADDRESS_COOLCONF, ADDRESS_IHOLD_IRUN] at hmem
      · rcases sendLoopUni_events _ _ _ _ _ hmem with hc | hc
        · simp [Ev.isTxByte] at hc
        · simp at hc
    · intro hfalse
      exact hfalse.elim

/-- C6: a semantic setter that changes one bit-field of the cached driver
current register leaves the other fields byte-identical: `setRunCurrent`
changes only irun (bits 8–12), preserving ihold (bits 0–4) and iholddelay
(bits 16–19); `setHoldCurrent` changes only ihold, preserving irun and
iholddelay. -/
theorem setter_preserves_other_current_fields (t : TMC) (percent : Nat) :
    (getField (((t.setRunCurrent percent).1).driver_current) 0 5 =
        getField t.driver_current 0 5 ∧
      getField (((t.setRunCurrent percent).1).driver_current) 16 4 =
        getField t.driver_current 16 4) ∧
    (getField (((t.setHoldCurrent percent).1).driver_current) 8 5 =
        getField t.driver_current 8 5 ∧
      getField (((t.setHoldCurrent percent).1).driver_current) 16 4 =
        getField t.driver_current 16 4) := by
  have h1 : ((t.setRunCurrent percent).1).driver_current =
      setField t.driver_current 8 5 (percentToCurrentSetting percent) := by
    unfold TMC.setRunCurrent
    exact (writeStoredDriverCurrent_fields _).1
  have h2 : ((t.setHoldCurrent percent).1).driver_current =
      setField t.driver_current 0 5 (percentToCurrentSetting percent) := by
    unfold TMC.setHoldCurrent
    exact (writeStoredDriverCurrent_fields _).1
  rw [h1, h2]
  refine ⟨⟨?_, ?_⟩, ?_, ?_⟩
  · exact getField_setField_of_disjoint _ 8 5 _ 0 5 (by norm_num) (Or.inl (by norm_num))
  · exact getField_setField_of_disjoint _ 8 5 _ 16 4 (by norm_num) (Or.inr (by norm_num))
  · exact getField_setField_of_disjoint _ 0 5 _ 8 5 (by norm_num) (Or.inr (by norm_num))
  · exact getField_setField_of_disjoint _ 0 5 _ 16 4 (by norm_num) (Or.inr (by norm_num))

theorem writeStoredDriverCurrent_claim (t : TMC) :
    (getField (((t.writeStoredDriverCurrent).1).cool_config) 15 1 =
        SEIMIN_UPPER_SETTING ↔
      SEIMIN_UPPER_CURRENT_LIMIT ≤
        getField (((t.writeStoredDriverCurrent).1).driver_current) 8 5) ∧
    (Ev.writeDatagram ADDRESS_COOLCONF ∈ (t.writeStoredDriverCurrent).2 ↔
      t.cool_step_enabled = true) := by
  obtain ⟨hdc, hcc, _⟩ := writeStoredDriverCurrent_fields t
  refine ⟨?_, writeStoredDriverCurrent_coolconf_write t⟩
  rw [hdc, hcc, getField_setField_self _ 15 1 _ (by norm_num)]
  by_cases h : getField t.driver_current 8 5 ≥ SEIMIN_UPPER_CURRENT_LIMIT
  · simp only [h, if_true]
    simp [SEIMIN_UPPER_SETTING]
  · simp only [h, if_false]
    simp [SEIMIN_UPPER_SETTING, SEIMIN_LOWER_SETTING]

/-! ## Cool-step invariant across current setters (C10) -/

/-- C10: after any driver-current write (`setRunCurrent`, `setHoldCurrent`,
`setHoldDelay`, `setAllCurrentValues`, `minimizeMotorCurrent`), the cached
cool-config seimin bit equals `SEIMIN_UPPER_SETTING` iff the cached irun is at
least `SEIMIN_UPPER_CURRENT_LIMIT`, and a COOLCONF datagram is written to
hardware iff cool-step is currently enabled. -/
theorem driver_current_write_maintains_seimin :
    (∀ (t : TMC) (p : Nat),
      (getField (((t.setRunCurrent p).1).cool_config) 15 1 = SEIMIN_UPPER_SETTING ↔
        SEIMIN_UPPER_CURRENT_LIMIT ≤
          getField (((t.setRunCurrent p).1).driver_current) 8 5) ∧
      (Ev.writeDatagram ADDRESS_COOLCONF ∈ (t.setRunCurrent p).2 ↔
        t.cool_step_enabled = true)) ∧
    (∀ (t : TMC) (p : Nat),
      (getField (((t.setHoldCurrent p).1).cool_config) 15 1 = SEIMIN_UPPER_SETTING ↔
        SEIMIN_UPPER_CURRENT_LIMIT ≤
          getField (((t.setHoldCurrent p).1).driver_current) 8 5) ∧
      (Ev.writeDatagram ADDRESS_COOLCONF ∈ (t.setHoldCurrent p).2 ↔
        t.cool_step_enabled = true)) ∧
    (∀ (t : TMC) (p : Nat),
      (getField (((t.setHoldDelay p).1).cool_config) 15 1 = SEIMIN_UPPER_SETTING ↔
        SEIMIN_UPPER_CURRENT_LIMIT ≤
          getField (((t.setHoldDelay p).1).driver_current) 8 5) ∧
      (Ev.writeDatagram ADDRESS_COOLCONF ∈ (t.setHoldDelay p).2 ↔
        t.cool_step_enabled = true)) ∧
    (∀ (t : TMC) (pr ph pd : Nat),
      (getField (((t.setAllCurrentValues pr ph pd).1).cool_config) 15 1 =
          SEIMIN_UPPER_SETTING ↔
        SEIMIN_UPPER_CURRENT_LIMIT ≤
          getField (((t.setAllCurrentValues pr ph pd).1).driver_current) 8 5) ∧
      (Ev.writeDatagram ADDRESS_COOLCONF ∈ (t.setAllCurrentValues pr ph pd).2 ↔
        t.cool_step_enabled = true)) ∧
    (∀ t : TMC,
      (getField (((t.minimizeMotorCurrent).1).cool_config) 15 1 =
          SEIMIN_UPPER_SETTING ↔
        SEIMIN_UPPER_CURRENT_LIMIT ≤
          getField (((t.minimizeMotorCurrent).1).driver_current) 8 5) ∧
      (Ev.writeDatagram ADDRESS_COOLCONF ∈ (t.minimizeMotorCurrent).2 ↔
        t.cool_step_enabled = true)) := by
  refine ⟨?_, ?_, ?_, ?_, ?_⟩
  · intro t p
    unfold TMC.setRunCurrent
    exact writeStoredDriverCurrent_claim _
  · intro t p
    unfold TMC.setHoldCurrent
    exact writeStoredDriverCurrent_claim _
  · intro t p
    unfold TMC.setHoldDelay
    exact writeStoredDriverCurrent_claim _
  · intro t pr ph pd
    unfold TMC.setAllCurrentValues
    exact writeStoredDriverCurrent_claim _
  · intro t
    unfold TMC.minimizeMotorCurrent
    exact writeStoredDriverCurrent_claim _

/-! ## getSettings under a non-responding chip (C7) -/

theorem TMC.isCommunicating_def (t : TMC) :
    t.isCommunicating =
      ((getField (t.read ADDRESS_IOIN).1 24 8 == VERSION),
       (t.read ADDRESS_IOIN).2.1, (t.read ADDRESS_IOIN).2.2) := by
  unfold TMC.isCommunicating TMC.getVersion
  rcases h : t.read ADDRESS_IOIN with ⟨v, t1, evs⟩
  simp

theorem isCommunicating_pwm (t : TMC) :
    ((t.isCommunicating).2.1).pwm_config = t.pwm_config := by
  rw [TMC.isCommunicating_def, TMC.read_def]

theorem isCommunicating_read_count (t : TMC) :
    ((t.isCommunicating).2.2).countP Ev.isReadDatagram = 1 := by
  rw [TMC.isCommunicating_def, TMC.read_def]
  dsimp only
  rw [List.countP_cons_of_pos _ _ (by rfl), List.countP_append]
  have h1 : ((sendDatagramBidirectional (readRequestDatagramBytes t.serial_address ADDRESS_IOIN)
      READ_REQUEST_DATAGRAM_SIZE t.huart).2).countP Ev.isReadDatagram = 0 := by
    rw [List.countP_eq_zero]
    intro e he
    rcases sendDatagramBidirectional_events _ _ _ e he with hc | hc | hc | ⟨ok, hc⟩
    · cases e <;> simp_all [Ev.isTxByte, Ev.isReadDatagram]
    · subst hc; simp [Ev.isReadDatagram]
    · subst hc; simp [Ev.isReadDatagram]
    · subst hc; simp [Ev.isReadDatagram]
  rw [h1]
  simp [Ev.isReadDatagram]

/-- C7 counterexample: on a non-responding transport, `getSettings` detects
the communication failure, yet the reported `standstill_mode` is not a
zeroed/disabled default — it reflects the cached PWM config's freewheel field
(here 1). -/
theorem getSettings_reports_cached_standstill :
    ((tFail.getSettings).1).is_communicating = false ∧
    ((tFail.getSettings).1).standstill_mode ≠ 0 := by
  decide

/-- C7 (amended): when the identification probe fails, `getSettings` performs
no further register reads (exactly the one IOIN read happens) and reports the
zeroed/disabled default for every derived field except `standstill_mode`,
which is copied from the cached PWM config's freewheel field. -/
theorem getSettings_not_communicating (t : TMC)
    (h : (t.isCommunicating).1 = false) :
    (t.getSettings).1 = defaultSettings (getField t.pwm_config 20 2) ∧
    ((t.getSettings).2.2).countP Ev.isReadDatagram = 1 := by
  have hpwm := isCommunicating_pwm t
  have hcount := isCommunicating_read_count t
  unfold TMC.getSettings
  rcases hic : t.isCommunicating with ⟨ic, t1, evs1⟩
  rw [hic] at h hpwm hcount
  dsimp only at h hpwm hcount ⊢
  subst h
  simp only [Bool.false_eq_true, if_false]
  constructor
  · rw [defaultSettings, hpwm]
  · exact hcount

/-- Witness for C7 (amended): applied on the non-responding instance `tFail`. -/
theorem getSettings_not_communicating_witness :
    (tFail.getSettings).1 = defaultSettings (getField tFail.pwm_config 20 2) ∧
    ((tFail.getSettings).2.2).countP Ev.isReadDatagram = 1 :=
  getSettings_not_communicating tFail (by decide)
